import Mathlib

/-!
# Verification of `jorm_master.py` (tstdin/jorm-master)

Shallow embedding of the Jormungandr high-availability master
(`src/jorm_master.py`) and proofs about its control logic.

Modelling conventions:
* Each `Runner`'s externally polled quantities (status, height, uptime,
  leader flag, systemd service uptime) are modelled as fields of a
  `RunnerState`; the TTL caches of the Python class only affect timing of
  refreshes, not the decision logic, so a poll is modelled as reading the
  field.
* Wall-clock reads (`time()`) are passed explicitly as a `now : Int`
  parameter; the several `time()` calls inside one pass are treated as
  returning the same value (the pass takes negligible time).
* Control commands (`restart`, `stop`, `promote`, `demote`, `suspend`,
  `resume`) are modelled by their intended state effect; `promote` sets the
  leader flag, `demote` clears it (the Python code posts/deletes leader
  ids over REST and retries on a later cycle if that fails).
* Python code that can raise an uncaught exception (e.g. `None - time()`)
  is modelled with `Option`/`Except`, `none`/`.error` being the raise.
* Configuration values read from `jorm_master.yaml` are the fields of
  `Config`.
-/

/-- `Status(IntEnum)` from the source: `OFF = 1`, `BOOT = 2`, `ON = 3`. -/
inductive Status where
  | OFF
  | BOOT
  | ON
deriving DecidableEq, Repr, Inhabited

/-- The numeric value of the `IntEnum` (`OFF = 1`, `BOOT = 2`, `ON = 3`). -/
def Status.toInt : Status → Int
  | .OFF => 1
  | .BOOT => 2
  | .ON => 3

/-- The configuration values from `/etc/cardano/jorm_master.yaml` that the
control logic reads (`config[...]` in the source). -/
structure Config where
  event_action : Int
  start_before_event : Int
  max_offset : Int
  boot_catch_up : Int
  max_boot : Int
  send_wait : Int
  recv_wait : Int
deriving Repr

/-- The polled state of one `Runner` (one `jorm_runner@<id>` unit): the
values its REST endpoint and systemd report when queried during the pass
under consideration.  `leader` is `is_leader()`, i.e. whether the node's
leader-id list is non-empty. -/
structure RunnerState where
  status : Status
  height : Int
  leader : Bool
  uptime : Int
  serviceUptime : Int
deriving DecidableEq, Repr

instance : Inhabited RunnerState := ⟨⟨.OFF, 0, false, 0, 0⟩⟩

/-- The mutable state of the `Master` object.  `runners` is indexed by
runner id (`Runner(i) for i in range(cnt_runners)`); the four `Option Int`
fields start as `None` in `Master.__init__` and are filled by
`load_settings`. -/
structure MasterState where
  runners : List RunnerState
  block_0_time : Option Int
  slot_duration : Option Int
  slots_per_epoch : Option Int
  epoch : Option Int
  epoch_end_time : Option Int
  leader_events : List Int
  epoch_events_known : Bool
deriving Repr

namespace Master

/-- The runner with id `i` (out-of-range reads never occur on the paths we
verify; `Inhabited.default` stands for Python's `IndexError`). -/
def runner (s : MasterState) (i : Nat) : RunnerState :=
  s.runners.getD i default

/-- `Master.heights`: list with the block height of each runner. -/
def heights (s : MasterState) : List Int :=
  s.runners.map (·.height)

/-- `Master.stats`: list with the status of each runner. -/
def stats (s : MasterState) : List Status :=
  s.runners.map (·.status)

/-- The sort key of `Master.__runners_sorted`, as the lexicographically
ordered tuple Python compares:
`(status == ON, height, is_leader, status == BOOT)` with
`False < True` on the booleans. -/
abbrev SortKey : Type := Bool ×ₗ Int ×ₗ Bool ×ₗ Bool

/-- Build a `SortKey` from its four components. -/
def mkSortKey (running : Bool) (height : Int) (leader booting : Bool) : SortKey :=
  toLex (running, toLex (height, toLex (leader, booting)))

/-- The sort key of runner `i` in state `s`. -/
def sortKey (s : MasterState) (i : Nat) : SortKey :=
  mkSortKey (decide ((runner s i).status = .ON)) (runner s i).height
    (runner s i).leader (decide ((runner s i).status = .BOOT))

/-- `Master.__runners_sorted`: runner indexes sorted by preference, best
first.  The source uses Python's stable `sorted(..., reverse=True)`; a
stable sort into descending key order is embedded as `insertionSort` with
the relation `sortKey j ≤ sortKey i` (equal keys keep their original,
i.e. increasing-id, order — exactly what `reverse=True` guarantees). -/
def runners_sorted (s : MasterState) : List Nat :=
  (List.range s.runners.length).insertionSort (fun i j => sortKey s j ≤ sortKey s i)

/-- `self.__runners_sorted()[0]` — the preferred ("best") runner id.
Python raises `IndexError` on an empty fleet; `headD 0` is only read on
non-empty fleets in the theorems below. -/
def best_id (s : MasterState) : Nat :=
  (runners_sorted s).headD 0

/-- The demotion loop of `Master.best_leader`:
`for r in runners: if r.id != best_id and r.is_leader(): r.demote()`.
Each iteration touches only runner `i` itself, so the sequential loop is
embedded structurally; `i` is the id of the first runner of `rs`. -/
def demoteAll (b : Nat) : Nat → List RunnerState → List RunnerState
  | _, [] => []
  | i, r :: rest =>
    (if i ≠ b ∧ r.leader then { r with leader := false } else r) :: demoteAll b (i + 1) rest

/-- The state of the fleet after the first `k` iterations of the demotion
loop of `Master.best_leader` (used to talk about the intermediate states
of an arbitration pass, one per issued command). -/
def demoteUpTo (b k : Nat) : Nat → List RunnerState → List RunnerState
  | _, [] => []
  | i, r :: rest =>
    (if i < k ∧ i ≠ b ∧ r.leader then { r with leader := false } else r)
      :: demoteUpTo b k (i + 1) rest

/-- `Master.best_leader`: demote every leader other than the best runner,
then promote the best runner if it is running and not already a leader. -/
def best_leader (s : MasterState) : MasterState :=
  let b := best_id s
  let rs := demoteAll b 0 s.runners
  let rs' :=
    if (rs.getD b default).status = .ON ∧ ¬ (rs.getD b default).leader then
      rs.set b { rs.getD b default with leader := true }
    else rs
  { s with runners := rs' }

/-- Number of runners currently registered as leader (`is_leader()`). -/
def countLeaders (rs : List RunnerState) : Nat :=
  rs.countP (·.leader)

/-- `Master.__upcoming_events`: leader events strictly in the future, plus
the epoch end time (regardless of whether it is in the future) when
`epoch_roll` is set and it is known. -/
def upcoming_events (s : MasterState) (now : Int) (epoch_roll : Bool) : List Int :=
  s.leader_events.filter (fun e => decide (e > now))
    ++ (if epoch_roll then s.epoch_end_time.toList else [])

/-- `Master.__closest_event`: time of the closest upcoming event, `none` if
there is none. -/
def closest_event (s : MasterState) (now : Int) (epoch_roll : Bool) : Option Int :=
  (upcoming_events s now epoch_roll).min?

/-- `Master.cnt_events`. -/
def cnt_events (s : MasterState) (now : Int) (only_future epoch_roll : Bool) : Nat :=
  if only_future then (upcoming_events s now epoch_roll).length else s.leader_events.length

/-- `Master.settings_loaded`: decides from `epoch_end_time` whether the
settings for the current epoch are loaded, clearing the expired epoch data
as a side effect.  Returns the updated state and the decision. -/
def settings_loaded (s : MasterState) (now : Int) : MasterState × Bool :=
  match s.epoch_end_time with
  | none => (s, false)
  | some e =>
    if e < now then
      ({ s with epoch_events_known := false, epoch := none, epoch_end_time := none }, false)
    else (s, true)

/-- `Master.load_settings`.  `b0q`, `sdq`, `speq` are the values the
settings endpoint of the first `ON` runner would return (`none` = query
failure, as in `Runner.block_0_time` etc.).  The epoch is derived as
`int((time() - block_0_time) / (slot_duration * slots_per_epoch))`;
Python's `int()` of the float quotient truncates toward zero, embedded as
`Int.tdiv` (exact for the magnitudes involved).  A still-missing value at
one of the arithmetic steps makes Python raise `TypeError` (and a zero
product `ZeroDivisionError`), modelled as `none`. -/
def load_settings (s : MasterState) (now : Int) (b0q sdq speq : Option Int) :
    Option MasterState :=
  match s.runners.find? (fun r => r.status == .ON) with
  | none => some s
  | some _ =>
    let b0 := s.block_0_time <|> b0q
    let sd := s.slot_duration <|> sdq
    let spe := s.slots_per_epoch <|> speq
    let epoch? : Option (Option Int) :=
      match s.epoch with
      | some e => some (some e)
      | none =>
        match b0, sd, spe with
        | some t0, some d, some k =>
          if d * k = 0 then none else some (some (Int.tdiv (now - t0) (d * k)))
        | _, _, _ => none
    match epoch? with
    | none => none
    | some ep =>
      let endTime? : Option (Option Int) :=
        match s.epoch_end_time with
        | some e => some (some e)
        | none =>
          match ep, sd, spe, b0 with
          | some e, some d, some k, some t0 => some (some ((e + 1) * d * k + t0 - 1))
          | _, _, _, _ => none
      match endTime? with
      | none => none
      | some et =>
        some { s with block_0_time := b0, slot_duration := sd, slots_per_epoch := spe,
                      epoch := ep, epoch_end_time := et }

/-- `Master.__safe_to_start`:
`self.__closest_event(epoch_roll=True) - time() > config['start_before_event']`.
When no event is known, `__closest_event` returns `None` and the
subtraction raises `TypeError`, modelled as `none`. -/
def safe_to_start (cfg : Config) (s : MasterState) (now : Int) : Option Bool :=
  (closest_event s now true).map (fun ce => decide (ce - now > cfg.start_before_event))

/-- The runner loop of `Master.load_leader_events`: the first `ON` runner
with an empty event list aborts the load; otherwise a list whose maximum
lies within `[epoch_start, epoch_end_time]` is accepted. -/
def loadEventsLoop (s' : MasterState) (eventsOf : Nat → List Int)
    (epoch_start et : Int) : Nat → List RunnerState → MasterState
  | _, [] => s'
  | i, r :: rest =>
    if r.status = .ON then
      let events := eventsOf i
      if events.length = 0 then s'
      else match events.max? with
        | some m =>
          if epoch_start ≤ m ∧ m ≤ et then
            { s' with leader_events := events, epoch_events_known := true }
          else loadEventsLoop s' eventsOf epoch_start et (i + 1) rest
        | none => loadEventsLoop s' eventsOf epoch_start et (i + 1) rest
    else loadEventsLoop s' eventsOf epoch_start et (i + 1) rest

/-- `Master.load_leader_events`.  `eventsOf` gives, per runner id, the
event list its `leaders/logs` endpoint reports.  The first `ON` runner's
non-empty list is accepted iff its maximum lies in the current epoch. -/
def load_leader_events (s : MasterState) (now : Int) (eventsOf : Nat → List Int) :
    MasterState :=
  match settings_loaded s now with
  | (s', false) => s'
  | (s', true) =>
    match s'.epoch, s'.slot_duration, s'.slots_per_epoch, s'.block_0_time,
        s'.epoch_end_time with
    | some e, some d, some k, some t0, some et =>
      loadEventsLoop s' eventsOf (e * d * k + t0) et 0 s'.runners
    | _, _, _, _, _ => s'

/-- `Master.start_stopped_runners` restarts every runner whose status is
`OFF`; this returns the ids restarted during the pass, in order. -/
def start_stopped_runners_ids (s : MasterState) : List Nat :=
  (List.range s.runners.length).filter (fun i => (runner s i).status = .OFF)

/-- The promote-all loop of `Master.handle_near_events`: before an epoch
rollover every `ON` runner that is not yet a leader is promoted. -/
def promoteAllOn (rs : List RunnerState) : List RunnerState :=
  rs.map (fun r => if r.status = .ON ∧ ¬ r.leader then { r with leader := true } else r)

/-- `Master.handle_near_events`.  Suspension/resumption of bootstrapping
runners touches only the OS processes (the modelled status value is
unchanged, spec §4.3), and the hibernation `sleep` only consumes wall
time, so neither appears in the state.  In the epoch-rollover branch the
source advances `self.__epoch` by one and recomputes
`self.__epoch_end_time` from the new epoch; missing settings there would
raise `TypeError` (`none`). -/
def handle_near_events (cfg : Config) (s : MasterState) (now : Int) : Option MasterState :=
  if cnt_events s now true true ≤ 0 then some s
  else
    match closest_event s now true with
    | none => none
    | some ce =>
      if ce - now < cfg.event_action then
        let epoch_rollover :=
          match s.epoch_end_time with
          | some e => decide (e - now < cfg.event_action)
          | none => false
        let s₁ := if epoch_rollover then { s with runners := promoteAllOn s.runners } else s
        if epoch_rollover then
          match s.epoch, s.slot_duration, s.slots_per_epoch, s.block_0_time with
          | some e, some d, some k, some t0 =>
            let e' := e + 1
            some { s₁ with epoch_events_known := false, epoch := some e',
                           epoch_end_time := some ((e' + 1) * d * k + t0 - 1) }
          | _, _, _, _ => none
        else some s₁
      else some s

/-- The per-runner decision of the first (`is_stuck`) rule of
`Master.restart_stuck`, given the already-computed `known_max` and the
value of `__safe_to_start` (the state does not change inside the loop, so
the call returns the same value at every iteration). -/
def stuckDecision (cfg : Config) (known_max : Int) (safe : Bool) (r : RunnerState) : Bool :=
  r.status == .ON && decide (known_max - r.height > cfg.max_offset)
    && safe && decide (r.uptime > cfg.boot_catch_up)

/-- The per-runner decision of the second (boot-timeout) rule of
`Master.restart_stuck`. -/
def bootDecision (cfg : Config) (r : RunnerState) : Bool :=
  r.status == .BOOT && decide (r.serviceUptime > cfg.max_boot)

/-- The loop of `Master.restart_stuck`, returning the ids restarted.
Python short-circuits `is_stuck and self.__safe_to_start() and ...`, so
`__safe_to_start` (which raises `TypeError` when no event is known,
modelled as the `none` branch) is only evaluated for a stuck runner.
A runner restarted by the first rule was `ON`, so the second rule's
`status() == Status.BOOT` test cannot also fire for it in the same
iteration. -/
def restartStuckLoop (cfg : Config) (s : MasterState) (now : Int) (known_max : Int) :
    Nat → List RunnerState → Option (List Nat)
  | _, [] => some []
  | i, r :: rest =>
    let isStuck := r.status == .ON && decide (known_max - r.height > cfg.max_offset)
    let restarted? : Option Bool :=
      if isStuck then
        match safe_to_start cfg s now with
        | none => none
        | some st => some (st && decide (r.uptime > cfg.boot_catch_up))
      else some false
    match restarted? with
    | none => none
    | some b₁ =>
      let b₂ := bootDecision cfg r
      ((restartStuckLoop cfg s now known_max (i + 1) rest).map
        (fun ids => (if b₁ || b₂ then [i] else []) ++ ids))

/-- `Master.restart_stuck`:
`known_max = max(self.heights() + [pt_max])`, then the restart loop. -/
def restart_stuck (cfg : Config) (s : MasterState) (now : Int) (pt_max : Int) :
    Option (List Nat) :=
  let known_max := (heights s).foldl max pt_max
  restartStuckLoop cfg s now known_max 0 s.runners

/-- `known_max` as computed by `Master.restart_stuck`. -/
def knownMax (s : MasterState) (pt_max : Int) : Int :=
  (heights s).foldl max pt_max

end Master

namespace Runner

/-- One attempt of the status-query loop in `Runner.status`: either the
REST call raised (`fail`), or it returned the given `state` string. -/
inductive Attempt where
  | fail
  | state (s : String)
deriving DecidableEq, Repr

/-- How one attempt is classified by the loop body: `some st` when the
state string maps to a status (`Running` → `ON`,
`Bootstrapping`/`PreparingBlock0` → `BOOT`), `none` when the attempt
failed or the string is unrecognized (the body's own
`raise ValueError("Cannot decide runner's status")` lands in the same
`except Exception` handler as a REST failure). -/
def attemptResult : Attempt → Option Status
  | .fail => none
  | .state s =>
    if s = "Running" then some .ON
    else if s = "Bootstrapping" ∨ s = "PreparingBlock0" then some .BOOT
    else none

/-- The retry loop of `Runner.status` for a systemd-active unit, with the
running `failures` counter.  Returns the resulting status and whether a
`stop` was issued through the supervisor.  The real loop queries until it
decides; `attempts` lists the outcomes of the successive queries, and
`none` means the modelled attempt list ran out before a decision. -/
def statusLoop : Nat → List Attempt → Option (Status × Bool)
  | _, [] => none
  | failures, a :: rest =>
    match attemptResult a with
    | some st => some (st, false)
    | none =>
      if failures + 1 ≥ 2 then some (.OFF, true)
      else statusLoop (failures + 1) rest

/-- `Runner.status` (cache-miss path): if `systemctl is-active` reports the
unit inactive the status is `OFF` with no command issued; otherwise the
retry loop decides.  The `Bool` records whether `self.stop()` was
issued. -/
def status (active : Bool) (attempts : List Attempt) : Option (Status × Bool) :=
  if active then statusLoop 0 attempts else some (.OFF, false)

end Runner

namespace PoolTool

/-- The mutable state of `PoolTool.__init__`:
majority max 0, last send/receive times 0, last sent height **1**. -/
structure State where
  majority_max : Int
  last_sent : Int
  last_recv : Int
  last_height : Int
deriving DecidableEq, Repr

/-- `PoolTool.__init__`. -/
def init : State := ⟨0, 0, 0, 1⟩

/-- `PoolTool.send_height`.  `pushOk` is whether the external GET to the
PoolTool tip endpoint succeeds.  Returns the new state and whether an
external push request was issued at all (the guard
`time() - last_sent < send_wait or height <= last_height` suppresses
it). -/
def send_height (cfg : Config) (pt : State) (now height : Int) (pushOk : Bool) :
    State × Bool :=
  if now - pt.last_sent < cfg.send_wait ∨ height ≤ pt.last_height then (pt, false)
  else if pushOk then ({ pt with last_sent := now, last_height := height }, true)
  else (pt, true)

/-- `PoolTool.majority_max`.  `fetched` is the value the stats endpoint
returns (`none` = request/parse failure); on failure or inside the
rate-limit window the cached value is returned unchanged. -/
def majority_max (cfg : Config) (pt : State) (now : Int) (fetched : Option Int) :
    State × Int :=
  if now - pt.last_recv ≥ cfg.recv_wait then
    match fetched with
    | some v => ({ pt with majority_max := v, last_recv := now }, v)
    | none => (pt, pt.majority_max)
  else (pt, pt.majority_max)

end PoolTool

/-! ## Timestamp parsing (`unix_time`, `time_jormungandr`, `time_systemctl`)

The two regular expressions of the source select between two `strptime`
formats.  `strptime`/`datetime`/`timestamp()` semantics are embedded with
proleptic-Gregorian calendar arithmetic.  The host is modelled as
configured for the UTC time zone (`time.tzname = ('UTC', 'UTC')`), which
fixes the behaviour of the `%Z` directive and of `timestamp()` on the
naive datetimes it produces: `%Z` accepts exactly `UTC`/`GMT` among the
all-uppercase three-letter names the regex lets through, and the
resulting timestamps are the UTC epoch seconds. -/

/-- The numeric value of an ASCII digit. -/
def digitVal (c : Char) : Nat := c.toNat - 48

/-- Two-digit field. -/
def dd (a b : Char) : Nat := 10 * digitVal a + digitVal b

/-- Four-digit field. -/
def dddd (a b c d : Char) : Nat :=
  1000 * digitVal a + 100 * digitVal b + 10 * digitVal c + digitVal d

/-- Gregorian leap year. -/
def isLeapYear (y : Nat) : Bool := y % 4 == 0 && (y % 100 != 0 || y % 400 == 0)

/-- Length of month `m` (1–12) of year `y`; 0 for an invalid month. -/
def daysInMonth (y m : Nat) : Nat :=
  if m = 2 then (if isLeapYear y then 29 else 28)
  else if m = 4 ∨ m = 6 ∨ m = 9 ∨ m = 11 then 30
  else if 1 ≤ m ∧ m ≤ 12 then 31
  else 0

/-- Days in the months strictly before month `m` of year `y`. -/
def daysBeforeMonth (y m : Nat) : Nat :=
  (List.range (m - 1)).foldl (fun acc i => acc + daysInMonth y (i + 1)) 0

/-- Days from 0001-01-01 to `y`-01-01 in the proleptic Gregorian
calendar. -/
def daysBeforeYear (y : Nat) : Nat :=
  365 * (y - 1) + (y - 1) / 4 - (y - 1) / 100 + (y - 1) / 400

/-- Days between 1970-01-01 and `y`-`m`-`d` (may be negative). -/
def epochDays (y m d : Nat) : Int :=
  (daysBeforeYear y + daysBeforeMonth y m + d - 1 : Int) - 719162

/-- Unix time of the civil datetime `y-m-d h:mi:s` at UTC offset
`offset` seconds. -/
def civilToUnix (y m d h mi s : Nat) (offset : Int) : Int :=
  epochDays y m d * 86400 + h * 3600 + mi * 60 + s - offset

/-- `datetime` field validation (`MINYEAR = 1`, month 1–12, day within the
month, hour ≤ 23, minute ≤ 59, second ≤ 59). -/
def validCivil (y m d h mi s : Nat) : Bool :=
  1 ≤ y && m ≥ 1 && m ≤ 12 && d ≥ 1 && d ≤ daysInMonth y m && h ≤ 23 && mi ≤ 59 && s ≤ 59

/-- The regexp `time_jormungandr`:
`^[0-9]{4}-[0-9]{2}-[0-9]{2}T[0-9]{2}:[0-9]{2}:[0-9]{2}\+[0-9]{2}:[0-9]{2}$`
(note: the offset sign accepted is only `+`). -/
def time_jormungandr (str : String) : Bool :=
  match str.data with
  | [y1, y2, y3, y4, '-', a1, a2, '-', b1, b2, 'T', h1, h2, ':', m1, m2, ':', s1, s2,
      '+', o1, o2, ':', p1, p2] =>
    y1.isDigit && y2.isDigit && y3.isDigit && y4.isDigit && a1.isDigit && a2.isDigit &&
    b1.isDigit && b2.isDigit && h1.isDigit && h2.isDigit && m1.isDigit && m2.isDigit &&
    s1.isDigit && s2.isDigit && o1.isDigit && o2.isDigit && p1.isDigit && p2.isDigit
  | _ => false

/-- The regexp `time_systemctl`:
`[A-Z][a-z]{2} [0-9]{4}-[0-9]{2}-[0-9]{2} [0-9]{2}:[0-9]{2}:[0-9]{2} [A-Z]{3}`.
It is applied with `re.match`, i.e. anchored at the start but **not** at
the end, so arbitrary trailing characters are allowed. -/
def time_systemctl (str : String) : Bool :=
  match str.data with
  | w1 :: w2 :: w3 :: ' ' :: y1 :: y2 :: y3 :: y4 :: '-' :: a1 :: a2 :: '-' :: b1 :: b2 ::
      ' ' :: h1 :: h2 :: ':' :: m1 :: m2 :: ':' :: s1 :: s2 :: ' ' :: z1 :: z2 :: z3 :: _ =>
    w1.isUpper && w2.isLower && w3.isLower &&
    y1.isDigit && y2.isDigit && y3.isDigit && y4.isDigit && a1.isDigit && a2.isDigit &&
    b1.isDigit && b2.isDigit && h1.isDigit && h2.isDigit && m1.isDigit && m2.isDigit &&
    s1.isDigit && s2.isDigit && z1.isUpper && z2.isUpper && z3.isUpper
  | _ => false

/-- The Jormungandr branch of `unix_time`: drop the colon inside the zone
offset, then `strptime(t, '%Y-%m-%dT%H:%M:%S%z')` and `timestamp()`.
Parsing directly at the regexp-guaranteed positions is equivalent to the
colon removal.  `strptime` errors (out-of-range fields; a zone offset of
a full day or more, rejected by `datetime.timezone`) are `.error`. -/
def iso_parse (str : String) : Except String Int :=
  match str.data with
  | [y1, y2, y3, y4, '-', a1, a2, '-', b1, b2, 'T', h1, h2, ':', m1, m2, ':', s1, s2,
      '+', o1, o2, ':', p1, p2] =>
    let y := dddd y1 y2 y3 y4
    let mo := dd a1 a2
    let d := dd b1 b2
    let h := dd h1 h2
    let mi := dd m1 m2
    let s := dd s1 s2
    let offset : Int := (dd o1 o2 : Int) * 3600 + (dd p1 p2 : Int) * 60
    if validCivil y mo d h mi s ∧ offset < 86400 then
      .ok (civilToUnix y mo d h mi s offset)
    else .error "strptime: field out of range"
  | _ => .error "strptime: time data does not match format"

/-- The systemd abbreviations accepted by `%a` that fit the regexp's
`[A-Z][a-z]{2}` shape. -/
def weekdayAbbrevs : List String := ["Mon", "Tue", "Wed", "Thu", "Fri", "Sat", "Sun"]

/-- The systemctl branch of `unix_time`:
`strptime(time_str, '%a %Y-%m-%d %H:%M:%S %Z')` and `timestamp()` on the
resulting naive datetime, on a UTC-configured host.  `%a` checks the
weekday name but not its consistency with the date; `%Z` accepts exactly
`UTC` and `GMT` among the regexp-shaped zone names; `strptime` requires
the whole string to match, so trailing characters (allowed by the
unanchored regexp) are an error. -/
def systemctl_parse (str : String) : Except String Int :=
  match str.data with
  | [w1, w2, w3, ' ', y1, y2, y3, y4, '-', a1, a2, '-', b1, b2, ' ', h1, h2, ':', m1, m2,
      ':', s1, s2, ' ', z1, z2, z3] =>
    let wday := String.mk [w1, w2, w3]
    let zone := String.mk [z1, z2, z3]
    let y := dddd y1 y2 y3 y4
    let mo := dd a1 a2
    let d := dd b1 b2
    let h := dd h1 h2
    let mi := dd m1 m2
    let s := dd s1 s2
    if wday ∈ weekdayAbbrevs ∧ (zone = "UTC" ∨ zone = "GMT") ∧ validCivil y mo d h mi s then
      .ok (civilToUnix y mo d h mi s 0)
    else .error "strptime: field out of range"
  | _ => .error "strptime: time data does not match format"

/-- `unix_time`: select the parser by regexp match; a string matching
neither raises the explicit
`ValueError(f'Cannot convert "{time_str}" to unix time')`. -/
def unix_time (str : String) : Except String Int :=
  if time_jormungandr str then iso_parse str
  else if time_systemctl str then systemctl_parse str
  else .error ("Cannot convert \"" ++ str ++ "\" to unix time")

/-! ## Concrete fixtures used by the theorems below -/

/-- A representative configuration: 60 s event-action window, 10 s
safe-start lead time, stuck offset 5, 300 s boot catch-up, 1800 s max
boot, 30 s PoolTool send/receive intervals. -/
def cfgA : Config := ⟨60, 10, 5, 300, 1800, 30, 30⟩

/-- A healthy running node. -/
def idleRunner : RunnerState := ⟨.ON, 100, false, 500, 500⟩

/-- One running node, no settings loaded, no events known — the state of
a fresh start once the first node is up. -/
def noEventState : MasterState := ⟨[idleRunner], none, none, none, none, none, [], false⟩

/-- Like `noEventState` but with one future leader event at time `t`. -/
def eventState (t : Int) : MasterState :=
  ⟨[idleRunner], none, none, none, none, none, [t], false⟩

/-- Two running, non-leader nodes with the epoch rollover 5 seconds away
(epoch 3 of a chain with `block0Time = 0`, `slotDuration = 10`,
`slotsPerEpoch = 100`; the stored epoch end is `4*10*100 - 1 = 3999`,
considered at `now = 3994`). -/
def rolloverState : MasterState :=
  ⟨[⟨.ON, 50, false, 100, 100⟩, ⟨.ON, 49, false, 100, 100⟩],
    some 0, some 10, some 100, some 3, some 3999, [], true⟩

/-- Three configured nodes, all `OFF`, nothing known — the fleet at the
very first control-loop tick. -/
def scenarioStart : MasterState :=
  ⟨[⟨.OFF, 0, false, 0, 0⟩, ⟨.OFF, 0, false, 0, 0⟩, ⟨.OFF, 0, false, 0, 0⟩],
    none, none, none, none, none, [], false⟩

/-- The end-to-end scenario state: all three nodes `RUNNING` with heights
100, 98, 95 and no leader registered. -/
def scenarioRunning : MasterState :=
  ⟨[⟨.ON, 100, false, 600, 600⟩, ⟨.ON, 98, false, 600, 600⟩, ⟨.ON, 95, false, 600, 600⟩],
    some 0, some 10, some 100, some 3, some 3999, [], false⟩

/-- A two-node fleet for the stuck-restart boundary: node 0 `ON` at
height `100 - gap`, node 1 `ON` at height 100; one leader event far in
the future so that `__safe_to_start` is true at `now = 1000`. -/
def stuckFleet (gap : Int) : MasterState :=
  ⟨[⟨.ON, 100 - gap, false, 400, 400⟩, ⟨.ON, 100, false, 400, 400⟩],
    some 0, some 10, some 100, some 3, some 3999, [2000], true⟩

/-! ## Theorems -/

/-- **C3** (code bug).  `Master.__safe_to_start` at the boundary: with no
known future event `__closest_event` returns `None` and the source
evaluates `None - time()`, raising `TypeError` (modelled as `none`)
instead of the `False` the spec describes; with the nearest event exactly
`start_before_event + 1` seconds away it returns true, and at exactly
`start_before_event` seconds away, false (`cfgA.start_before_event =
10`). -/
theorem safe_to_start_boundary :
    Master.safe_to_start cfgA noEventState 1000 = none ∧
    Master.safe_to_start cfgA (eventState 1011) 1000 = some true ∧
    Master.safe_to_start cfgA (eventState 1010) 1000 = some false :=
  ⟨rfl, rfl, rfl⟩

/-- **C6** (counterexample).  A single unrecognized state string is *not*
answered with a stop and `OFF`: it counts as one failure and the loop
retries, so an unrecognized string followed by `"Running"` yields `ON`
with no stop issued — contrary to the claim that *any* unrecognized
state string forces a stop. -/
theorem status_unrecognized_then_running_tolerated :
    Runner.status true [Runner.Attempt.state "InvalidState", Runner.Attempt.state "Running"]
      = some (Status.ON, false) := rfl

/-- **C6** (amended).  On a supervisor-active node, a failed query and an
unrecognized state string are treated alike as one failure: a first
recognized attempt yields its mapped status; one bad attempt followed by
a recognized one is tolerated and yields the mapped status; two
consecutive bad attempts issue a stop and return `OFF`. -/
theorem status_retry_policy (a b : Runner.Attempt) (rest : List Runner.Attempt) (st : Status) :
    (Runner.attemptResult a = some st → Runner.status true (a :: rest) = some (st, false)) ∧
    (Runner.attemptResult a = none → Runner.attemptResult b = some st →
      Runner.status true (a :: b :: rest) = some (st, false)) ∧
    (Runner.attemptResult a = none → Runner.attemptResult b = none →
      Runner.status true (a :: b :: rest) = some (.OFF, true)) := by
  refine ⟨fun ha => ?_, fun ha hb => ?_, fun ha hb => ?_⟩
  · simp [Runner.status, Runner.statusLoop, ha]
  · simp [Runner.status, Runner.statusLoop, ha, hb]
  · simp [Runner.status, Runner.statusLoop, ha, hb]

/-- **C6** (witness).  Two consecutive failed queries stop the runner and
report `OFF`. -/
theorem status_retry_policy_witness :
    Runner.status true [Runner.Attempt.fail, Runner.Attempt.fail] = some (Status.OFF, true) :=
  (status_retry_policy .fail .fail [] .OFF).2.2 rfl rfl

/-- **C7** (counterexample).  The claim admits both offset signs
(`±HH:MM`), but `time_jormungandr` only matches a literal `+`: an
ISO-8601 string with a negative offset matches neither pattern and
raises the explicit `ValueError` instead of parsing. -/
theorem unix_time_minus_offset_raises :
    unix_time "2019-12-13T19:13:37-05:00"
      = .error ("Cannot convert \"2019-12-13T19:13:37-05:00\" to unix time") := rfl

/-- **C7** (amended).  `unix_time` selects the parser by pattern match
(the ISO form accepting only `+HH:MM` offsets); a string matching
neither pattern raises the explicit `ValueError`; the two reference
instants both parse to 1576264417 (supervisor form on a UTC-configured
host); a pattern-matching string can still fail inside `strptime` when a
field is out of range (e.g. month 13). -/
theorem unix_time_selection :
    (∀ str : String, time_jormungandr str = false → time_systemctl str = false →
      unix_time str = .error ("Cannot convert \"" ++ str ++ "\" to unix time")) ∧
    unix_time "2019-12-13T19:13:37+00:00" = .ok 1576264417 ∧
    unix_time "Fri 2019-12-13 19:13:37 UTC" = .ok 1576264417 ∧
    unix_time "2019-13-01T00:00:00+00:00" = .error "strptime: field out of range" := by
  refine ⟨fun str h1 h2 => ?_, rfl, rfl, rfl⟩
  simp [unix_time, h1, h2]

/-- **C7** (witness).  A string matching neither pattern raises the
explicit parse error. -/
theorem unix_time_selection_witness :
    unix_time "not a time" = .error ("Cannot convert \"not a time\" to unix time") :=
  unix_time_selection.1 "not a time" rfl rfl

/-- **C8** (confirmed).  `PoolTool.send_height` is a no-op whenever the
height has not strictly increased since the last successfully sent value
or less than `send_wait` seconds have elapsed since the last successful
send; a failed push leaves the recorded state unchanged; and a send
followed by a second call with the same height performs exactly one
external push (the second call is suppressed by the height guard). -/
theorem send_height_policy (cfg : Config) (pt : PoolTool.State) (now now₂ h : Int)
    (ok ok₂ : Bool) :
    ((h ≤ pt.last_height ∨ now - pt.last_sent < cfg.send_wait) →
      PoolTool.send_height cfg pt now h ok = (pt, false)) ∧
    ((PoolTool.send_height cfg pt now h false).1 = pt) ∧
    (h > pt.last_height → now - pt.last_sent ≥ cfg.send_wait →
      (PoolTool.send_height cfg pt now h true).2 = true ∧
      (PoolTool.send_height cfg (PoolTool.send_height cfg pt now h true).1 now₂ h ok₂).2
        = false) := by
  refine ⟨fun hg => ?_, ?_, fun h1 h2 => ?_⟩
  · have hcond : now - pt.last_sent < cfg.send_wait ∨ h ≤ pt.last_height :=
      hg.elim Or.inr Or.inl
    simp [PoolTool.send_height, if_pos hcond]
  · by_cases hcond : now - pt.last_sent < cfg.send_wait ∨ h ≤ pt.last_height
    · simp [PoolTool.send_height, if_pos hcond]
    · simp [PoolTool.send_height, if_neg hcond]
  · have hcond : ¬(now - pt.last_sent < cfg.send_wait ∨ h ≤ pt.last_height) := by omega
    have hs1 : PoolTool.send_height cfg pt now h true
        = ({ pt with last_sent := now, last_height := h }, true) := by
      simp [PoolTool.send_height, if_neg hcond]
    refine ⟨by rw [hs1], ?_⟩
    rw [hs1]
    have hle : h ≤ ({ pt with last_sent := now, last_height := h } : PoolTool.State).last_height :=
      le_refl h
    simp [PoolTool.send_height, if_pos (Or.inr hle)]

/-- **C8** (witness).  From the initial state, a first push of height 5 at
`now = 1000` goes out and an immediate repeat of the same height does
not. -/
theorem send_height_policy_witness :
    (PoolTool.send_height cfgA PoolTool.init 1000 5 true).2 = true ∧
    (PoolTool.send_height cfgA (PoolTool.send_height cfgA PoolTool.init 1000 5 true).1
      1001 5 true).2 = false :=
  (send_height_policy cfgA PoolTool.init 1000 1001 5 true true).2.2 (by decide) (by decide)

/-- **C10** (confirmed).  `PoolTool.__init__` sets the last sent height to
1, so any height ≤ 1 is never pushed, even on the very first call and
with the rate-limit window long elapsed. -/
theorem send_height_init_floor (cfg : Config) (now h : Int) (ok : Bool) :
    PoolTool.init.last_height = 1 ∧
    (h ≤ 1 → PoolTool.send_height cfg PoolTool.init now h ok = (PoolTool.init, false)) := by
  refine ⟨rfl, fun hh => ?_⟩
  have hle : h ≤ PoolTool.init.last_height := hh
  simp [PoolTool.send_height, if_pos (Or.inr hle)]

/-- **C10** (witness).  Height 1 at `now = 1000000` (any rate window long
over) is not pushed from the initial state. -/
theorem send_height_init_floor_witness :
    PoolTool.send_height cfgA PoolTool.init 1000000 1 true = (PoolTool.init, false) :=
  (send_height_init_floor cfgA 1000000 1 true).2 (by decide)

/-- **C9** (counterexample).  On the very first tick
`Master.start_stopped_runners` restarts *every* `OFF` runner — all three
of them — not only node 0 as the staged scenario claims. -/
theorem first_tick_restarts_all :
    Master.start_stopped_runners_ids scenarioStart = [0, 1, 2] := rfl

/-- **C9** (amended).  Starting from 3 configured nodes all `OFF`, one
tick restarts all three; and once all three report `RUNNING` with
heights 100, 98, 95 and no node is a leader, the arbitration pass
promotes node 0 and leaves the other two passive. -/
theorem scenario_restart_and_promote :
    Master.start_stopped_runners_ids scenarioStart = [0, 1, 2] ∧
    Master.best_id scenarioRunning = 0 ∧
    (Master.best_leader scenarioRunning).runners.map (·.leader) = [true, false, false] :=
  ⟨rfl, rfl, rfl⟩

/-- Under a non-crashing `__safe_to_start` (value `some sf`), the loop of
`Master.restart_stuck` returns exactly the ids whose runner satisfies the
stuck rule or the boot-timeout rule. -/
theorem restartStuckLoop_eq (cfg : Config) (s : MasterState) (now km : Int) (sf : Bool)
    (hsafe : Master.safe_to_start cfg s now = some sf) :
    ∀ (rs : List RunnerState) (j p : Nat),
      ∃ ids, Master.restartStuckLoop cfg s now km j rs = some ids ∧
        (p ∈ ids ↔ ∃ q, q < rs.length ∧ p = j + q ∧
          (Master.stuckDecision cfg km sf (rs.getD q default)
            || Master.bootDecision cfg (rs.getD q default)) = true) := by
  intro rs
  induction rs with
  | nil =>
    intro j p
    exact ⟨[], rfl, by simp⟩
  | cons r rest ih =>
    intro j p
    obtain ⟨ids, hids, hmem⟩ := ih (j + 1) p
    refine ⟨(if Master.stuckDecision cfg km sf r || Master.bootDecision cfg r then [j]
        else []) ++ ids, ?_, ?_⟩
    · have hrest : (if (r.status == Status.ON && decide (km - r.height > cfg.max_offset))
            = true then
            match Master.safe_to_start cfg s now with
            | none => none
            | some st => some (st && decide (r.uptime > cfg.boot_catch_up))
          else some false) = some (Master.stuckDecision cfg km sf r) := by
        by_cases hst : (r.status == Status.ON && decide (km - r.height > cfg.max_offset))
            = true
        · rw [if_pos hst, hsafe]
          simp only [Master.stuckDecision, hst, Bool.true_and]
        · have hfalse : (r.status == Status.ON && decide (km - r.height > cfg.max_offset))
              = false := by simpa using hst
          rw [if_neg hst]
          simp only [Master.stuckDecision, hfalse, Bool.false_and]
      simp only [Master.restartStuckLoop, hrest, hids, Option.map_some']
    · have hsplit : p ∈ (if Master.stuckDecision cfg km sf r || Master.bootDecision cfg r
          then [j] else []) ++ ids ↔
          ((Master.stuckDecision cfg km sf r || Master.bootDecision cfg r) = true ∧ p = j)
            ∨ p ∈ ids := by
        by_cases hb : (Master.stuckDecision cfg km sf r || Master.bootDecision cfg r) = true
          <;> simp [hb]
      rw [hsplit, hmem]
      constructor
      · rintro (⟨hb, hp⟩ | ⟨q, hq, hpq, hd⟩)
        · refine ⟨0, by simp, by omega, ?_⟩
          simpa using hb
        · refine ⟨q + 1, ?_, by omega, ?_⟩
          · simp only [List.length_cons]
            omega
          · simpa using hd
      · rintro ⟨q, hq, hpq, hd⟩
        cases q with
        | zero =>
          refine Or.inl ⟨?_, by omega⟩
          simpa using hd
        | succ q' =>
          refine Or.inr ⟨q', ?_, by omega, ?_⟩
          · simp only [List.length_cons] at hq
            omega
          · simpa using hd

/-- **C5** (confirmed).  With `known_max = max(all local heights, pt_max)`:
a `RUNNING` node whose height lags `known_max` by exactly `max_offset` is
not restarted, while a lag of `max_offset + 1` is restarted, given that
`__safe_to_start` holds and the node's own uptime exceeds the
`boot_catch_up` grace period. -/
theorem restart_stuck_boundary (cfg : Config) (s : MasterState) (now pt_max : Int) (i : Nat)
    (hi : i < s.runners.length)
    (hsafe : Master.safe_to_start cfg s now = some true)
    (hon : (Master.runner s i).status = .ON)
    (hup : (Master.runner s i).uptime > cfg.boot_catch_up) :
    (Master.knownMax s pt_max - (Master.runner s i).height = cfg.max_offset →
      (Master.restart_stuck cfg s now pt_max).map (fun ids => decide (i ∈ ids))
        = some false) ∧
    (Master.knownMax s pt_max - (Master.runner s i).height = cfg.max_offset + 1 →
      (Master.restart_stuck cfg s now pt_max).map (fun ids => decide (i ∈ ids))
        = some true) := by
  obtain ⟨ids, hids, hmem⟩ :=
    restartStuckLoop_eq cfg s now (Master.knownMax s pt_max) true hsafe s.runners 0 i
  have hrs : Master.restart_stuck cfg s now pt_max = some ids := hids
  constructor
  · intro hgap
    rw [hrs, Option.map_some']
    have hni : i ∉ ids := by
      rw [hmem]
      rintro ⟨q, hq, hpq, hd⟩
      have hqi : q = i := by omega
      subst hqi
      have hrq : s.runners.getD q default = Master.runner s q := rfl
      rw [hrq] at hd
      simp [Master.stuckDecision, Master.bootDecision, hon] at hd
      omega
    simp [hni]
  · intro hgap
    rw [hrs, Option.map_some']
    have hin : i ∈ ids := by
      rw [hmem]
      refine ⟨i, hi, by omega, ?_⟩
      have hrq : s.runners.getD i default = Master.runner s i := rfl
      rw [hrq]
      simp [Master.stuckDecision, hon, hup]
      omega
    simp [hin]

/-- **C5** (witness).  In a two-node fleet with heights 95 and 100 and
`max_offset = 5`, the lagging node (gap exactly 5) is not restarted. -/
theorem restart_stuck_boundary_witness :
    (Master.restart_stuck cfgA (stuckFleet 5) 1000 0).map (fun ids => decide (0 ∈ ids))
      = some false :=
  (restart_stuck_boundary cfgA (stuckFleet 5) 1000 0 0 (by decide) (by decide)
    (by decide) (by decide)).1 (by decide)

/-- **C4** (confirmed).  The epoch end time is always computed as
`(epoch + 1) * slotDuration * slotsPerEpoch + block0Time - 1`: by
`load_settings` from the stored epoch `e`, and by the rollover branch of
`handle_near_events` from the incremented epoch `e + 1` directly —
without re-deriving the epoch from the wall clock or re-querying a node
(the rollover branch reads only the stored settings fields). -/
theorem epoch_end_formula (cfg : Config) (s : MasterState) (t0 d k e et now : Int)
    (rs : List RunnerState) (lev : List Int) (ek : Bool) (b0q sdq speq : Option Int)
    (hfind : (rs.find? (fun r => r.status == .ON)).isSome = true)
    (hb0 : s.block_0_time = some t0) (hsd : s.slot_duration = some d)
    (hspe : s.slots_per_epoch = some k) (hep : s.epoch = some e)
    (het : s.epoch_end_time = some et) (hnear : et - now < cfg.event_action) :
    Master.load_settings ⟨rs, some t0, some d, some k, some e, none, lev, ek⟩ now b0q sdq speq
      = some ⟨rs, some t0, some d, some k, some e, some ((e + 1) * d * k + t0 - 1), lev, ek⟩ ∧
    (Master.handle_near_events cfg s now).map (fun x => x.epoch) = some (some (e + 1)) ∧
    (Master.handle_near_events cfg s now).map (fun x => x.epoch_end_time)
      = some (some ((e + 1 + 1) * d * k + t0 - 1)) ∧
    (Master.handle_near_events cfg s now).map (fun x => x.epoch_events_known)
      = some false := by
  obtain ⟨r, hr⟩ := Option.isSome_iff_exists.mp hfind
  have hload : Master.load_settings ⟨rs, some t0, some d, some k, some e, none, lev, ek⟩
      now b0q sdq speq
      = some ⟨rs, some t0, some d, some k, some e, some ((e + 1) * d * k + t0 - 1), lev, ek⟩ := by
    simp [Master.load_settings, hr]
  have hmemet : et ∈ Master.upcoming_events s now true := by
    simp [Master.upcoming_events, het]
  have hlen : 0 < (Master.upcoming_events s now true).length :=
    List.length_pos_of_mem hmemet
  obtain ⟨m, hm⟩ : ∃ m, (Master.upcoming_events s now true).min? = some m :=
    Option.isSome_iff_exists.mp (List.isSome_min?_of_mem hmemet)
  have hle : m ≤ et :=
    ((List.le_min?_iff (fun a b c => le_min_iff) hm).mp (le_refl m)) et hmemet
  have hcnt : ¬ (Master.cnt_events s now true true ≤ 0) := by
    simp only [Master.cnt_events, if_true]
    omega
  have hclosest : Master.closest_event s now true = some m := hm
  have hmlt : m - now < cfg.event_action := by omega
  have heq : Master.handle_near_events cfg s now = some
      { s with runners := Master.promoteAllOn s.runners, epoch_events_known := false,
               epoch := some (e + 1),
               epoch_end_time := some ((e + 1 + 1) * d * k + t0 - 1) } := by
    simp only [Master.handle_near_events, if_neg hcnt, hclosest, if_pos hmlt, het, hb0, hsd,
      hspe, hep]
    simp only [decide_eq_true hnear, if_true]
  rw [heq]
  exact ⟨hload, rfl, rfl, rfl⟩

/-- **C4** (witness).  With `block0Time = 0`, `slotDuration = 10`,
`slotsPerEpoch = 100`, epoch 3, `load_settings` stores the end time
`4 * 10 * 100 - 1 = 3999`. -/
theorem epoch_end_formula_witness :
    Master.load_settings ⟨[idleRunner], some 0, some 10, some 100, some 3, none, [], false⟩
        3994 none none none
      = some ⟨[idleRunner], some 0, some 10, some 100, some 3, some 3999, [], false⟩ :=
  (epoch_end_formula cfgA rolloverState 0 10 100 3 3999 3994 [idleRunner] [] false
    none none none (by decide) rfl rfl rfl rfl rfl (by decide)).1

/-- **C2** (counterexample).  With an epoch rollover 5 seconds away and
two `RUNNING` non-leader nodes, `Master.handle_near_events`
intentionally promotes *all* running nodes, leaving two simultaneously
registered leaders — so "at most one registered leader after every
control command" does not hold across the whole loop. -/
theorem rollover_promotes_two_leaders :
    (Master.handle_near_events cfgA rolloverState 3994).map
      (fun s' => Master.countLeaders s'.runners) = some 2 := rfl

namespace Master

theorem demoteAll_length (b : Nat) : ∀ (i : Nat) (rs : List RunnerState),
    (demoteAll b i rs).length = rs.length := by
  intro i rs
  induction rs generalizing i with
  | nil => rfl
  | cons r rest ih => simp [demoteAll, ih]

theorem default_leader_eq_false : (default : RunnerState).leader = false := rfl

theorem demoteAll_getD (b : Nat) : ∀ (rs : List RunnerState) (i p : Nat),
    (demoteAll b i rs).getD p default =
      (if i + p ≠ b ∧ (rs.getD p default).leader = true
        then { rs.getD p default with leader := false } else rs.getD p default) := by
  intro rs
  induction rs with
  | nil =>
    intro i p
    simp [demoteAll, default_leader_eq_false]
  | cons r rest ih =>
    intro i p
    cases p with
    | zero => simp [demoteAll]
    | succ p' =>
      have hstep : demoteAll b i (r :: rest)
          = (if i ≠ b ∧ r.leader = true then { r with leader := false } else r)
            :: demoteAll b (i + 1) rest := rfl
      rw [hstep]
      simp only [List.getD_cons_succ]
      rw [ih (i + 1) p']
      have hadd : i + 1 + p' = i + (p' + 1) := by omega
      rw [hadd]

theorem demoteAll_getD_status (b i p : Nat) (rs : List RunnerState) :
    ((demoteAll b i rs).getD p default).status = (rs.getD p default).status := by
  rw [demoteAll_getD]
  split <;> rfl

theorem demoteAll_getD_leader (b i p : Nat) (rs : List RunnerState) :
    ((demoteAll b i rs).getD p default).leader = true ↔
      (i + p = b ∧ (rs.getD p default).leader = true) := by
  rw [demoteAll_getD]
  by_cases h1 : i + p = b
  · simp [h1]
  · by_cases h2 : (rs.getD p default).leader = true
    · rw [if_pos ⟨h1, h2⟩]
      constructor
      · intro hl
        simp at hl
      · rintro ⟨hpb, _⟩
        exact absurd hpb h1
    · rw [if_neg (fun hc => h2 hc.2)]
      constructor
      · intro hl
        exact absurd hl h2
      · rintro ⟨hpb, _⟩
        exact absurd hpb h1

theorem demoteAll_count (b : Nat) : ∀ (rs : List RunnerState) (i : Nat),
    countLeaders (demoteAll b i rs)
      = if i ≤ b ∧ (rs.getD (b - i) default).leader = true then 1 else 0 := by
  intro rs
  induction rs with
  | nil =>
    intro i
    simp [demoteAll, countLeaders, default_leader_eq_false]
  | cons r rest ih =>
    intro i
    have hstep : demoteAll b i (r :: rest)
        = (if i ≠ b ∧ r.leader = true then { r with leader := false } else r)
          :: demoteAll b (i + 1) rest := rfl
    rw [hstep]
    simp only [countLeaders, List.countP_cons] at *
    rw [ih (i + 1)]
    by_cases hib : i = b
    · subst hib
      have hhd : (if i ≠ i ∧ r.leader = true then { r with leader := false } else r) = r := by
        simp
      rw [hhd]
      have hfalse : ¬ (i + 1 ≤ i ∧ (rest.getD (i - (i + 1)) default).leader = true) := by
        rintro ⟨h1, _⟩
        omega
      rw [if_neg hfalse]
      simp [Nat.sub_self]
    · have hhd : (if i ≠ b ∧ r.leader = true then { r with leader := false } else r).leader
          = false := by
        by_cases hr : r.leader = true
        · simp [hib, hr]
        · simp [hib, hr]
      rw [hhd]
      by_cases hlt : i < b
      · have h1 : i + 1 ≤ b := hlt
        have h2 : i ≤ b := Nat.le_of_lt hlt
        have hgd : (r :: rest).getD (b - i) default = rest.getD (b - (i + 1)) default := by
          have hsub : b - i = (b - (i + 1)) + 1 := by omega
          rw [hsub, List.getD_cons_succ]
        rw [hgd]
        simp [h1, h2]
      · have h1 : ¬ (i + 1 ≤ b) := by omega
        have h2 : ¬ (i ≤ b) := by omega
        simp [h1, h2]

theorem countLeaders_set (rs : List RunnerState) (b : Nat) (r' : RunnerState)
    (hb : b < rs.length) (hl : (rs.getD b default).leader = false) :
    countLeaders (rs.set b r') = countLeaders rs + (if r'.leader then 1 else 0) := by
  induction rs generalizing b with
  | nil => simp at hb
  | cons r rest ih =>
    cases b with
    | zero =>
      simp only [List.getD_cons_zero] at hl
      simp only [List.set_cons_zero, countLeaders, List.countP_cons, hl]
      simp
    | succ b' =>
      simp only [List.getD_cons_succ] at hl
      simp only [List.set_cons_succ, countLeaders, List.countP_cons]
      simp only [countLeaders] at ih
      rw [ih b' (by simpa using hb) hl]
      exact Nat.add_right_comm _ _ _

theorem pairSublistRange {a c n : Nat} (hac : a < c) (hcn : c < n) :
    List.Sublist [a, c] (List.range n) := by
  induction n with
  | zero => omega
  | succ m ih =>
    rw [List.range_succ]
    by_cases hc : c < m
    · exact (ih hc).trans (List.sublist_append_left _ _)
    · have hcm : c = m := by omega
      subst hcm
      have h1 : List.Sublist [a] (List.range c) :=
        List.singleton_sublist.mpr (List.mem_range.mpr hac)
      exact List.Sublist.append h1 (List.Sublist.refl [c])

theorem countLeaders_demoteUpTo_le (b k : Nat) : ∀ (rs : List RunnerState) (i : Nat),
    countLeaders (demoteUpTo b k i rs) ≤ countLeaders rs := by
  intro rs
  induction rs with
  | nil =>
    intro i
    exact le_refl _
  | cons r rest ih =>
    intro i
    have hstep : demoteUpTo b k i (r :: rest)
        = (if i < k ∧ i ≠ b ∧ r.leader = true then { r with leader := false } else r)
          :: demoteUpTo b k (i + 1) rest := rfl
    rw [hstep]
    simp only [countLeaders, List.countP_cons]
    have hhd : (if (if i < k ∧ i ≠ b ∧ r.leader = true then { r with leader := false }
          else r).leader = true then 1 else 0) ≤ (if r.leader = true then 1 else 0) := by
      by_cases hc : i < k ∧ i ≠ b ∧ r.leader = true
      · rw [if_pos hc]
        simp [hc.2.2]
      · rw [if_neg hc]
    have htail := ih (i + 1)
    simp only [countLeaders] at htail
    exact Nat.add_le_add htail hhd

theorem countLeaders_best_leader_le_one (s : MasterState) :
    countLeaders (best_leader s).runners ≤ 1 := by
  set b := best_id s with hbdef
  set rs2 := demoteAll b 0 s.runners with hrs2
  have hbl_def : (best_leader s).runners
      = (if (rs2.getD b default).status = Status.ON ∧ ¬ ((rs2.getD b default).leader = true)
          then rs2.set b { rs2.getD b default with leader := true } else rs2) := rfl
  have hgdb : rs2.getD b default = s.runners.getD b default := by
    rw [hrs2, demoteAll_getD]
    simp
  have hcount2 : countLeaders rs2 ≤ 1 := by
    rw [hrs2, demoteAll_count]
    split
    · exact le_refl 1
    · exact Nat.zero_le 1
  by_cases hcond : (rs2.getD b default).status = Status.ON
      ∧ ¬ ((rs2.getD b default).leader = true)
  · rw [hbl_def, if_pos hcond]
    by_cases hblt2 : b < rs2.length
    · have hbl2 : (rs2.getD b default).leader = false := by
        rcases hcond with ⟨_, h⟩
        simpa using h
      rw [countLeaders_set rs2 b _ hblt2 hbl2]
      have hfbl : (s.runners.getD b default).leader = false := by
        rw [← hgdb]
        exact hbl2
      have hnc : ¬ (0 ≤ b ∧ (s.runners.getD (b - 0) default).leader = true) := by
        rintro ⟨_, hc2⟩
        rw [Nat.sub_zero, hfbl] at hc2
        simp at hc2
      have hz : countLeaders rs2 = 0 := by
        rw [hrs2, demoteAll_count, if_neg hnc]
      rw [hz, if_pos rfl]
    · rw [List.set_eq_of_length_le (by omega)]
      exact hcount2
  · rw [hbl_def, if_neg hcond]
    exact hcount2

/-- The best runner id is a valid index whose sort key is maximal, and it
is the least index among the key-maximal ones (Python's stable
`sorted(..., reverse=True)` keeps ties in increasing-id order). -/
theorem best_id_spec (s : MasterState) (hn : 0 < s.runners.length) :
    best_id s < s.runners.length ∧
    (∀ j, j < s.runners.length → sortKey s j ≤ sortKey s (best_id s)) ∧
    (∀ j, j < s.runners.length → sortKey s j = sortKey s (best_id s) → best_id s ≤ j) := by
  have hperm : List.Perm (runners_sorted s) (List.range s.runners.length) :=
    List.perm_insertionSort _ _
  haveI hTot : IsTotal Nat (fun i j => sortKey s j ≤ sortKey s i) :=
    ⟨fun a b => le_total _ _⟩
  haveI hTrans : IsTrans Nat (fun i j => sortKey s j ≤ sortKey s i) :=
    ⟨fun a b c h1 h2 => le_trans h2 h1⟩
  have hsorted : (runners_sorted s).Sorted (fun i j => sortKey s j ≤ sortKey s i) :=
    List.sorted_insertionSort _ _
  cases hl : runners_sorted s with
  | nil =>
    exfalso
    have hlen := hperm.length_eq
    rw [hl] at hlen
    simp at hlen
    omega
  | cons b₀ t =>
    have hbid : best_id s = b₀ := by rw [best_id, hl]; rfl
    rw [hl] at hperm hsorted
    have hbmem : b₀ ∈ List.range s.runners.length :=
      hperm.mem_iff.mp (List.mem_cons_self b₀ t)
    have hblt : b₀ < s.runners.length := List.mem_range.mp hbmem
    refine ⟨hbid ▸ hblt, ?_, ?_⟩
    · intro j hj
      rw [hbid]
      have hjmem : j ∈ b₀ :: t := hperm.mem_iff.mpr (List.mem_range.mpr hj)
      rcases List.mem_cons.mp hjmem with hjb | hjt
      · rw [hjb]
      · exact List.rel_of_sorted_cons hsorted j hjt
    · intro j hj heq
      rw [hbid]
      by_contra hnle
      have hjb : j < b₀ := by omega
      have hrjb : sortKey s b₀ ≤ sortKey s j := by
        rw [hbid] at heq
        exact le_of_eq heq.symm
      have hsub : List.Sublist [j, b₀] (runners_sorted s) :=
        List.pair_sublist_insertionSort hrjb (pairSublistRange hjb hblt)
      have hnd : (b₀ :: t).Nodup :=
        hperm.nodup_iff.mpr (List.nodup_range s.runners.length)
      rw [hl] at hsub
      cases hsub with
      | cons _ h =>
        have hbt : b₀ ∈ t := h.subset (by simp)
        exact (List.nodup_cons.mp hnd).1 hbt
      | cons₂ h => omega

end Master

/-- **C1** (confirmed).  For every fleet with at least one `RUNNING` node,
one call to `Master.best_leader` leaves exactly one runner registered as
leader — the best id — and that runner is top-ranked under the
descending lexicographic key `(status == ON, height, is_leader,
status == BOOT)`, any remaining tie resolved in favour of the lowest
runner id.  (`best_leader` itself never inspects the event schedule, so
the claim's "no event imminent" proviso is not needed.) -/
theorem best_leader_single_top (s : MasterState)
    (hrun : ∃ r ∈ s.runners, r.status = Status.ON) :
    Master.countLeaders (Master.best_leader s).runners = 1 ∧
    (∀ p, p < s.runners.length →
      (((Master.best_leader s).runners.getD p default).leader = true
        ↔ p = Master.best_id s)) ∧
    (∀ j, j < s.runners.length →
      Master.sortKey s j ≤ Master.sortKey s (Master.best_id s)) ∧
    (∀ j, j < s.runners.length →
      Master.sortKey s j = Master.sortKey s (Master.best_id s) → Master.best_id s ≤ j) := by
  obtain ⟨rr, hrmem, hron⟩ := hrun
  have hn : 0 < s.runners.length := List.length_pos_of_mem hrmem
  obtain ⟨hblt, hmax, hmin⟩ := Master.best_id_spec s hn
  -- an index carrying the RUNNING witness
  obtain ⟨j₀, hj₀lt, hj₀⟩ := List.mem_iff_getElem.mp hrmem
  have hj₀d : s.runners.getD j₀ default = rr := by
    rw [List.getD_eq_getElem?_getD, List.getElem?_eq_getElem hj₀lt, hj₀]
    rfl
  -- the best runner is RUNNING: its key dominates a key whose first
  -- component is true
  have hbON : (s.runners.getD (Master.best_id s) default).status = Status.ON := by
    have hkey := hmax j₀ hj₀lt
    rw [Master.sortKey, Master.sortKey, Master.mkSortKey, Master.mkSortKey,
      Prod.Lex.le_iff] at hkey
    have hj₀ON : decide ((Master.runner s j₀).status = Status.ON) = true := by
      rw [Master.runner, hj₀d]
      simpa using hron
    rcases hkey with hlt | ⟨heq, _⟩
    · rw [hj₀ON] at hlt
      rw [Bool.lt_iff] at hlt
      exact absurd hlt.1 (by simp)
    · rw [hj₀ON] at heq
      have := of_decide_eq_true heq.symm
      exact this
  set b := Master.best_id s with hbdef
  set rs2 := Master.demoteAll b 0 s.runners with hrs2
  have hlen2 : rs2.length = s.runners.length := Master.demoteAll_length b 0 s.runners
  have hgdb : rs2.getD b default = s.runners.getD b default := by
    rw [hrs2, Master.demoteAll_getD]
    simp
  have hbl_def : (Master.best_leader s).runners
      = (if (rs2.getD b default).status = Status.ON ∧ ¬ ((rs2.getD b default).leader = true)
          then rs2.set b { rs2.getD b default with leader := true } else rs2) := rfl
  by_cases hbl : (s.runners.getD b default).leader = true
  · -- the best runner was already a leader: no promotion happens
    have hcond : ¬ ((rs2.getD b default).status = Status.ON
        ∧ ¬ ((rs2.getD b default).leader = true)) := by
      rw [hgdb]
      rintro ⟨_, hnl⟩
      exact hnl hbl
    have hfin : (Master.best_leader s).runners = rs2 := by rw [hbl_def, if_neg hcond]
    refine ⟨?_, ?_, hmax, hmin⟩
    · rw [hfin, hrs2, Master.demoteAll_count, if_pos ⟨Nat.zero_le b, hbl⟩]
    · intro p hp
      rw [hfin, hrs2, Master.demoteAll_getD_leader]
      constructor
      · rintro ⟨hpb, _⟩
        omega
      · intro hpb
        subst hpb
        exact ⟨by omega, hbl⟩
  · -- the best runner was not a leader: it is RUNNING, so it is promoted
    have hbl2 : (rs2.getD b default).leader = false := by
      rw [hgdb]
      simpa using hbl
    have hcond : (rs2.getD b default).status = Status.ON
        ∧ ¬ ((rs2.getD b default).leader = true) := by
      rw [hgdb]
      exact ⟨hbON, hbl⟩
    have hfin : (Master.best_leader s).runners
        = rs2.set b { rs2.getD b default with leader := true } := by
      rw [hbl_def, if_pos hcond]
    have hblt2 : b < rs2.length := by omega
    have hset_getD : ∀ p, (rs2.set b { rs2.getD b default with leader := true }).getD p default
        = if b = p then { rs2.getD b default with leader := true }
          else rs2.getD p default := by
      intro p
      rw [List.getD_eq_getElem?_getD, List.getElem?_set]
      by_cases hbp : b = p
      · subst hbp
        simp [hblt2]
      · rw [if_neg hbp, if_neg hbp, ← List.getD_eq_getElem?_getD]
    refine ⟨?_, ?_, hmax, hmin⟩
    · rw [hfin, Master.countLeaders_set rs2 b _ hblt2 hbl2, hrs2, Master.demoteAll_count,
        if_neg (fun hc => hbl hc.2), if_pos rfl]
    · intro p hp
      rw [hfin, hset_getD p]
      by_cases hbp : b = p
      · rw [if_pos hbp]
        simp [hbp.symm]
      · rw [if_neg hbp]
        rw [hrs2, Master.demoteAll_getD_leader]
        constructor
        · rintro ⟨hpb, _⟩
          omega
        · intro hpb
          omega

/-- **C1** (witness).  In the three-node fleet with heights 100, 98, 95,
one arbitration pass leaves exactly one leader. -/
theorem best_leader_single_top_witness :
    Master.countLeaders (Master.best_leader scenarioRunning).runners = 1 :=
  (best_leader_single_top scenarioRunning ⟨⟨Status.ON, 100, false, 600, 600⟩, by decide, rfl⟩).1

/-- **C2** (amended).  An arbitration pass itself never pushes the leader
count above one: `best_leader` always ends with at most one registered
leader, and every intermediate state of its demotion loop (after `k`
iterations, for any `k`) has at most as many leaders as the pass started
with — so during the pass the count never exceeds `max(initial count,
1)`.  The global "at most one leader after every control command"
claim is refuted by the epoch-rollover promote-all loop of
`handle_near_events` (see the counterexample). -/
theorem arbitration_pass_leader_bound (s : MasterState) (k : Nat) :
    Master.countLeaders (Master.best_leader s).runners ≤ 1 ∧
    Master.countLeaders (Master.demoteUpTo (Master.best_id s) k 0 s.runners)
      ≤ Master.countLeaders s.runners :=
  ⟨Master.countLeaders_best_leader_le_one s,
    Master.countLeaders_demoteUpTo_le (Master.best_id s) k s.runners 0⟩
